import Mathlib

/-!
Verification of the Nova-Long-Horizon-Agentic-Ai repository core:
the sliding-window conversation manager, the provider adapters, the
tool registry and the agent turn loop, shallowly embedded from the
Python sources (main.py, llm_client.py, tools.py, mem_0.py).
-/

namespace Nova

/-- A single quote character, used inside error texts produced by tools.py. -/
def sq : String := String.singleton (Char.ofNat 39)

/-- Keyword arguments passed to a tool callable, as decoded from a JSON
object. Values are kept opaque as strings; the claims never inspect them. -/
def Args : Type := List (String × String)

instance : DecidableEq Args := by
  unfold Args
  infer_instance

/-- The arguments field of a tool-call record from an LLM response: either an
already structured mapping or a raw text blob that must be JSON-decoded
(tools.py, execute_tool_call). -/
inductive PyArgs where
  | raw (s : String)
  | parsed (a : Args)
deriving DecidableEq

/-- One tool-call record from a provider response: a dict with keys id, name
and arguments (llm_client.py parses responses into this shape). The id key
may be absent, in which case main.py synthesizes one. -/
structure ToolCall where
  id : Option String
  name : String
  arguments : PyArgs
deriving DecidableEq

/-- A chat message (llm_client.py, class Message). -/
structure Message where
  role : String
  content : String
  tool_calls : List ToolCall := []
  tool_call_id : Option String := none
  name : Option String := none
deriving DecidableEq

/-- True when the message has the system role (main.py compares
m.role == "system"). -/
def isSystem (m : Message) : Bool := m.role == "system"

/-- Python slice xs[-w:] for a nonnegative w: the last w elements, except
that for w = 0 the slice is xs[0:], i.e. the whole list. -/
def pyTakeLast (w : Nat) (xs : List α) : List α :=
  if w = 0 then xs else xs.drop (xs.length - w)

/-- The conversation window state (main.py, dataclass MemoryManager). -/
structure MemoryManager where
  messages : List Message
  max_messages : Nat
  sliding_window_size : Nat
  total_tokens_used : Nat
deriving DecidableEq

/-- main.py, MemoryManager._apply_sliding_window: keep every system-role
message plus the slice non_system[-sliding_window_size:] of the others. -/
def MemoryManager.apply_sliding_window (mm : MemoryManager) : MemoryManager :=
  { mm with messages :=
      mm.messages.filter isSystem
        ++ pyTakeLast mm.sliding_window_size
             (mm.messages.filter (fun m => !(isSystem m))) }

/-- main.py, MemoryManager.add_message: append, then evict when the length
exceeds max_messages. -/
def MemoryManager.add_message (mm : MemoryManager) (m : Message) : MemoryManager :=
  let mm1 := { mm with messages := mm.messages ++ [m] }
  if mm1.messages.length > mm1.max_messages then
    mm1.apply_sliding_window
  else
    mm1

/-- A fresh MemoryManager with the given limits (main.py constructs it with
the two config constants; messages start empty). -/
def initMM (maxm w : Nat) : MemoryManager :=
  { messages := [], max_messages := maxm, sliding_window_size := w,
    total_tokens_used := 0 }

/-- Adding a sequence of messages one by one through add_message. -/
def runAdds (mm : MemoryManager) (msgs : List Message) : MemoryManager :=
  msgs.foldl MemoryManager.add_message mm

/-- Modelled from the spec: the phrase "the last window_size of the
non-system messages" read literally, i.e. a slice that is empty when
window_size is zero. Used to compare the eviction code against the
claim wording. -/
def specLastN (n : Nat) (xs : List α) : List α := xs.drop (xs.length - n)

-- ==========================================================================
-- Basic lemmas about the sliding window
-- ==========================================================================

/-- Eviction does not change which limits the manager carries. -/
theorem apply_sliding_window_fields (mm : MemoryManager) :
    (mm.apply_sliding_window).max_messages = mm.max_messages ∧
    (mm.apply_sliding_window).sliding_window_size = mm.sliding_window_size := by
  constructor <;> rfl

/-- add_message does not change which limits the manager carries. -/
theorem add_message_fields (mm : MemoryManager) (m : Message) :
    (mm.add_message m).max_messages = mm.max_messages ∧
    (mm.add_message m).sliding_window_size = mm.sliding_window_size := by
  unfold MemoryManager.add_message
  dsimp only
  split <;> exact ⟨rfl, rfl⟩

/-- Every element of the pyTakeLast slice comes from the original list. -/
theorem pyTakeLast_subset (w : Nat) (xs : List α) :
    ∀ a ∈ pyTakeLast w xs, a ∈ xs := by
  intro a ha
  unfold pyTakeLast at ha
  by_cases h : w = 0
  · simpa [h] using ha
  · simp [h] at ha
    exact List.mem_of_mem_drop ha

/-- The pyTakeLast slice is a suffix of the original list. -/
theorem pyTakeLast_suffix (w : Nat) (xs : List α) :
    pyTakeLast w xs <:+ xs := by
  unfold pyTakeLast
  by_cases h : w = 0
  · simp [h]
  · simp [h]
    exact List.drop_suffix _ _

/-- The pyTakeLast slice keeps the element just appended at the end. -/
theorem pyTakeLast_mem_last (w : Nat) (xs : List α) (a : α) :
    a ∈ pyTakeLast w (xs ++ [a]) := by
  unfold pyTakeLast
  by_cases h : w = 0
  · simp [h]
  · simp only [h, if_neg, ite_false]
    have hlen : (xs ++ [a]).length = xs.length + 1 := by simp
    have hle : (xs ++ [a]).length - w ≤ xs.length := by
      rw [hlen]
      omega
    rw [List.drop_append_of_le_length hle]
    simp

/-- Length of the pyTakeLast slice is at most w whenever w is positive. -/
theorem pyTakeLast_length_le (w : Nat) (hw : 1 ≤ w) (xs : List α) :
    (pyTakeLast w xs).length ≤ w := by
  unfold pyTakeLast
  have h : ¬ (w = 0) := by omega
  simp only [h, if_neg, ite_false, List.length_drop]
  omega

/-- Eviction keeps the system-role sublist unchanged. -/
theorem apply_sliding_window_filter_system (mm : MemoryManager) :
    (mm.apply_sliding_window).messages.filter isSystem
      = mm.messages.filter isSystem := by
  unfold MemoryManager.apply_sliding_window
  simp only [List.filter_append]
  have h2 : (pyTakeLast mm.sliding_window_size
      (mm.messages.filter (fun m => !(isSystem m)))).filter isSystem = [] := by
    rw [List.filter_eq_nil_iff]
    intro a ha
    have := pyTakeLast_subset _ _ a ha
    have hmem := List.of_mem_filter this
    simpa using hmem
  rw [h2, List.append_nil, List.filter_filter]
  simp

/-- Eviction keeps the non-system sublist equal to its pyTakeLast slice. -/
theorem apply_sliding_window_filter_non_system (mm : MemoryManager) :
    (mm.apply_sliding_window).messages.filter (fun m => !(isSystem m))
      = pyTakeLast mm.sliding_window_size
          (mm.messages.filter (fun m => !(isSystem m))) := by
  unfold MemoryManager.apply_sliding_window
  simp only [List.filter_append]
  have h1 : (mm.messages.filter isSystem).filter (fun m => !(isSystem m)) = [] := by
    rw [List.filter_eq_nil_iff]
    intro a ha
    have hmem := List.of_mem_filter ha
    simpa using hmem
  have h2 : (pyTakeLast mm.sliding_window_size
      (mm.messages.filter (fun m => !(isSystem m)))).filter (fun m => !(isSystem m))
      = pyTakeLast mm.sliding_window_size
          (mm.messages.filter (fun m => !(isSystem m))) := by
    rw [List.filter_eq_self]
    intro a ha
    have := pyTakeLast_subset _ _ a ha
    exact List.mem_filter.mp this |>.2
  rw [h1, h2, List.nil_append]

/-- A system-role message present before an add is still present after it. -/
theorem add_message_preserves_system (mm : MemoryManager) (m x : Message)
    (hx : x ∈ mm.messages) (hsys : isSystem x) :
    x ∈ (mm.add_message m).messages := by
  unfold MemoryManager.add_message
  by_cases h : (mm.messages ++ [m]).length > mm.max_messages
  · simp only [h, if_pos]
    unfold MemoryManager.apply_sliding_window
    simp only
    apply List.mem_append_left
    exact List.mem_filter.mpr ⟨List.mem_append_left _ hx, hsys⟩
  · simp only [h, if_neg, ite_false]
    exact List.mem_append_left _ hx

/-- The message just added is present after the add. -/
theorem add_message_mem_self (mm : MemoryManager) (m : Message) :
    m ∈ (mm.add_message m).messages := by
  unfold MemoryManager.add_message
  by_cases h : (mm.messages ++ [m]).length > mm.max_messages
  · simp only [h, if_pos]
    unfold MemoryManager.apply_sliding_window
    simp only
    by_cases hs : isSystem m
    · apply List.mem_append_left
      exact List.mem_filter.mpr ⟨List.mem_append_right _ (by simp), hs⟩
    · apply List.mem_append_right
      have : (mm.messages ++ [m]).filter (fun x => !(isSystem x))
          = mm.messages.filter (fun x => !(isSystem x)) ++ [m] := by
        rw [List.filter_append]
        simp [hs]
      rw [this]
      exact pyTakeLast_mem_last _ _ _
  · simp only [h, if_neg, ite_false]
    exact List.mem_append_right _ (by simp)

/-- After eviction the window length is at most the number of system messages
in it plus the sliding window size, provided the window size is at least
one. -/
theorem apply_sliding_window_length (mm : MemoryManager)
    (hw : 1 ≤ mm.sliding_window_size) :
    (mm.apply_sliding_window).messages.length
      ≤ ((mm.apply_sliding_window).messages.filter isSystem).length
          + mm.sliding_window_size := by
  rw [apply_sliding_window_filter_system]
  unfold MemoryManager.apply_sliding_window
  simp only [List.length_append]
  have hb := pyTakeLast_length_le _ hw (mm.messages.filter (fun x => !(isSystem x)))
  omega

/-- After one add from any state, the window length is bounded by the larger
of max_messages and (number of system messages in the window) plus the
sliding window size, provided the window size is at least one. -/
theorem add_message_length_bound (mm : MemoryManager) (m : Message)
    (hw : 1 ≤ mm.sliding_window_size) :
    (mm.add_message m).messages.length
      ≤ max mm.max_messages
          (((mm.add_message m).messages.filter isSystem).length
            + mm.sliding_window_size) := by
  unfold MemoryManager.add_message
  dsimp only
  split
  next hgt =>
    apply le_max_of_le_right
    exact apply_sliding_window_length { mm with messages := mm.messages ++ [m] } hw
  next hle =>
    apply le_max_of_le_left
    simp only [not_lt] at hle
    simpa using hle

/-- pyTakeLast agrees with the literal "last n elements" slice whenever the
window size is positive; they differ only at zero. -/
theorem pyTakeLast_eq_specLastN (w : Nat) (hw : 1 ≤ w) (xs : List α) :
    pyTakeLast w xs = specLastN w xs := by
  unfold pyTakeLast specLastN
  have h : ¬ (w = 0) := by omega
  simp [h]

/-- runAdds does not change which limits the manager carries. -/
theorem runAdds_fields (msgs : List Message) :
    ∀ mm : MemoryManager,
      (runAdds mm msgs).max_messages = mm.max_messages ∧
      (runAdds mm msgs).sliding_window_size = mm.sliding_window_size := by
  induction msgs with
  | nil => intro mm; exact ⟨rfl, rfl⟩
  | cons m rest ih =>
      intro mm
      have h1 := add_message_fields mm m
      have h2 := ih (mm.add_message m)
      unfold runAdds at h2 ⊢
      simp only [List.foldl_cons]
      omega

/-- A system-role message present in the window stays present through any
further sequence of adds. -/
theorem runAdds_preserves_system (msgs : List Message) :
    ∀ (mm : MemoryManager) (x : Message), x ∈ mm.messages → isSystem x →
      x ∈ (runAdds mm msgs).messages := by
  induction msgs with
  | nil => intro mm x hx _; exact hx
  | cons m rest ih =>
      intro mm x hx hsys
      unfold runAdds
      simp only [List.foldl_cons]
      exact ih (mm.add_message m) x (add_message_preserves_system mm m x hx hsys) hsys

/-- Every system-role message appearing in an added sequence is present in
the window after the whole sequence has been added. -/
theorem runAdds_mem_system (msgs : List Message) :
    ∀ (mm : MemoryManager) (x : Message), x ∈ msgs → isSystem x →
      x ∈ (runAdds mm msgs).messages := by
  induction msgs with
  | nil => intro mm x hx _; cases hx
  | cons m rest ih =>
      intro mm x hx hsys
      unfold runAdds
      simp only [List.foldl_cons]
      rcases List.mem_cons.mp hx with heq | hrest
      · subst heq
        exact runAdds_preserves_system rest (mm.add_message x) x
          (add_message_mem_self mm x) hsys
      · exact ih (mm.add_message m) x hrest hsys

/-- Splitting a run of adds at the last message. -/
theorem runAdds_append_single (mm : MemoryManager) (prior : List Message)
    (m : Message) :
    runAdds mm (prior ++ [m]) = (runAdds mm prior).add_message m := by
  unfold runAdds
  rw [List.foldl_append]
  rfl

-- ==========================================================================
-- Sample messages used by concrete counterexamples and witnesses
-- ==========================================================================

/-- A user-role message with the given content. -/
def msgU (c : String) : Message := { role := "user", content := c }

/-- A system-role message with the given content. -/
def msgS (c : String) : Message := { role := "system", content := c }

-- ==========================================================================
-- C1: sliding-window invariant of MemoryManager.add_message
-- ==========================================================================

/-- C1 (counterexample). The claim states that after each add the window
length is at most max_messages for any max_messages and
sliding_window_size. With max_messages = 1 and sliding_window_size = 2,
adding two user messages leaves a window of length 2: eviction keeps the
last two non-system messages, which exceeds max_messages. -/
theorem c1_window_counterexample :
    (runAdds (initMM 1 2) [msgU "a", msgU "b"]).messages.length = 2 ∧
    ¬ ((runAdds (initMM 1 2) [msgU "a", msgU "b"]).messages.length
        ≤ (initMM 1 2).max_messages) := by
  refine ⟨rfl, ?_⟩
  have h : (runAdds (initMM 1 2) [msgU "a", msgU "b"]).messages.length = 2 := rfl
  rw [h]
  decide

/-- C1 (amended): for every sequence of messages added via add_message and
every positive sliding_window_size, after each add the window length is at
most the larger of max_messages and the number of system messages in the
window plus sliding_window_size, and every system-role message ever added
is still present in the window. -/
theorem c1_window_amended (maxm w : Nat) (hw : 1 ≤ w)
    (prior : List Message) (m : Message) :
    (runAdds (initMM maxm w) (prior ++ [m])).messages.length
      ≤ max maxm
          (((runAdds (initMM maxm w) (prior ++ [m])).messages.filter isSystem).length
            + w)
    ∧ ∀ x ∈ prior ++ [m], isSystem x →
        x ∈ (runAdds (initMM maxm w) (prior ++ [m])).messages := by
  constructor
  · rw [runAdds_append_single]
    have hfields := runAdds_fields prior (initMM maxm w)
    have hmax : (runAdds (initMM maxm w) prior).max_messages = maxm := hfields.1
    have hwin : (runAdds (initMM maxm w) prior).sliding_window_size = w := hfields.2
    have hb := add_message_length_bound (runAdds (initMM maxm w) prior) m
      (by rw [hwin]; exact hw)
    rw [hmax, hwin] at hb
    exact hb
  · intro x hx hsys
    exact runAdds_mem_system (prior ++ [m]) (initMM maxm w) x hx hsys

/-- C1 (witness): the amended bound evaluated at a concrete run with one
system message and two user messages, max_messages 1, window size 1. -/
theorem c1_window_amended_witness :
    (1 : Nat) ≤ 1 ∧
    ((runAdds (initMM 1 1) ([msgS "s", msgU "a"] ++ [msgU "b"])).messages.length
      ≤ max 1
          (((runAdds (initMM 1 1)
              ([msgS "s", msgU "a"] ++ [msgU "b"])).messages.filter isSystem).length
            + 1)
    ∧ ∀ x ∈ [msgS "s", msgU "a"] ++ [msgU "b"], isSystem x →
        x ∈ (runAdds (initMM 1 1) ([msgS "s", msgU "a"] ++ [msgU "b"])).messages) :=
  ⟨by decide, c1_window_amended 1 1 (by decide) [msgS "s", msgU "a"] (msgU "b")⟩

-- ==========================================================================
-- C7: the eviction algorithm
-- ==========================================================================

/-- The concrete manager state used by the C7 counterexample: one user
message, maximum one message, sliding window size zero. -/
def mmC7 : MemoryManager :=
  { messages := [msgU "a"], max_messages := 1, sliding_window_size := 0,
    total_tokens_used := 0 }

/-- C7 (counterexample). With sliding_window_size = 0 the Python slice
non_system[-0:] is the whole list, so eviction keeps every non-system
message, while the claim predicts that only the last zero non-system
messages survive, i.e. an empty window. Adding a second user message to a
full window triggers eviction and both user messages survive. -/
theorem c7_eviction_counterexample :
    (mmC7.add_message (msgU "b")).messages = [msgU "a", msgU "b"] ∧
    ([msgU "a", msgU "b"].filter isSystem
      ++ specLastN mmC7.sliding_window_size
           ([msgU "a", msgU "b"].filter (fun x => !(isSystem x)))) = ([] : List Message) ∧
    ([msgU "a", msgU "b"] : List Message) ≠ ([] : List Message) := by
  refine ⟨rfl, rfl, ?_⟩
  decide

/-- C7 (amended): whenever the window length exceeds max_messages at the
moment eviction runs and the sliding window size is positive, the
post-eviction window consists of exactly all system-role messages, in
their original order, plus the last sliding_window_size non-system
messages; the retained non-system messages form a suffix of the original
non-system subsequence, so their relative order equals the original
insertion order. -/
theorem c7_eviction_amended (mm : MemoryManager)
    (hw : 1 ≤ mm.sliding_window_size)
    (_hov : mm.messages.length > mm.max_messages) :
    ((mm.apply_sliding_window).messages.filter isSystem
        = mm.messages.filter isSystem)
    ∧ ((mm.apply_sliding_window).messages.filter (fun x => !(isSystem x))
        = specLastN mm.sliding_window_size
            (mm.messages.filter (fun x => !(isSystem x))))
    ∧ ((mm.apply_sliding_window).messages.filter (fun x => !(isSystem x))
        <:+ mm.messages.filter (fun x => !(isSystem x)))
    ∧ ((mm.apply_sliding_window).messages
        = (mm.apply_sliding_window).messages.filter isSystem
          ++ (mm.apply_sliding_window).messages.filter (fun x => !(isSystem x))) := by
  refine ⟨apply_sliding_window_filter_system mm, ?_, ?_, ?_⟩
  · rw [apply_sliding_window_filter_non_system]
    exact pyTakeLast_eq_specLastN _ hw _
  · rw [apply_sliding_window_filter_non_system]
    exact pyTakeLast_suffix _ _
  · rw [apply_sliding_window_filter_system, apply_sliding_window_filter_non_system]
    rfl

/-- The concrete manager state used by the C7 witness: one system and two
user messages, maximum two messages, sliding window size one. -/
def mmC7w : MemoryManager :=
  { messages := [msgS "s", msgU "a", msgU "b"], max_messages := 2,
    sliding_window_size := 1, total_tokens_used := 0 }

/-- C7 (witness): the amended eviction characterization evaluated on a
concrete overfull window. -/
theorem c7_eviction_amended_witness :
    (1 ≤ mmC7w.sliding_window_size ∧ mmC7w.messages.length > mmC7w.max_messages) ∧
    (((mmC7w.apply_sliding_window).messages.filter isSystem
        = mmC7w.messages.filter isSystem)
    ∧ ((mmC7w.apply_sliding_window).messages.filter (fun x => !(isSystem x))
        = specLastN mmC7w.sliding_window_size
            (mmC7w.messages.filter (fun x => !(isSystem x))))
    ∧ ((mmC7w.apply_sliding_window).messages.filter (fun x => !(isSystem x))
        <:+ mmC7w.messages.filter (fun x => !(isSystem x)))
    ∧ ((mmC7w.apply_sliding_window).messages
        = (mmC7w.apply_sliding_window).messages.filter isSystem
          ++ (mmC7w.apply_sliding_window).messages.filter (fun x => !(isSystem x)))) :=
  ⟨⟨by decide, by decide⟩, c7_eviction_amended mmC7w (by decide) (by decide)⟩

-- ==========================================================================
-- tools.py: Tool, ToolRegistry and execute_tool_call
-- ==========================================================================

/-- A registered tool (tools.py, dataclass Tool). The callable either
returns a text result or raises an exception carrying a message, which we
model as an Except value. The parameter schema is not needed by any
claim and is omitted. -/
structure Tool where
  name : String
  description : String
  function : Args → Except String String

/-- tools.py, Tool.execute: invoke the callable with the keyword
arguments. -/
def Tool.execute (t : Tool) (kwargs : Args) : Except String String :=
  t.function kwargs

/-- The tool registry (tools.py, class ToolRegistry): a mapping from tool
name to Tool, here an association list looked up by name. -/
structure ToolRegistry where
  tools : List (String × Tool)

/-- tools.py, ToolRegistry.get: dictionary lookup returning the tool or
nothing. -/
def ToolRegistry.get (reg : ToolRegistry) (name : String) : Option Tool :=
  reg.tools.lookup name

/-- The text returned when a tool name is not registered (tools.py line
136). -/
def toolNotFoundText (name : String) : String :=
  "Error: Tool " ++ sq ++ name ++ sq ++ " not found."

/-- The text returned when a registered tool raises (tools.py line 141). -/
def toolExecErrorText (name msg : String) : String :=
  "Error executing " ++ sq ++ name ++ sq ++ ": " ++ msg

/-- tools.py, ToolRegistry.execute: look the tool up; if absent return the
not-found text; otherwise invoke it, catching any exception and converting
it into the executing-error text. -/
def ToolRegistry.execute (reg : ToolRegistry) (name : String) (kwargs : Args) :
    String :=
  match reg.get name with
  | none => toolNotFoundText name
  | some tool =>
      match tool.execute kwargs with
      | .ok r => r
      | .error e => toolExecErrorText name e

/-- The text returned by execute_tool_call when the raw arguments blob is
not valid JSON (tools.py line 796). -/
def invalidJsonText (name : String) : String :=
  "Error: Invalid JSON arguments for tool " ++ sq ++ name ++ sq

/-- tools.py, execute_tool_call: take the name and arguments from the
record; when the arguments are a raw string, JSON-decode them first,
returning the invalid-JSON text when decoding fails; then dispatch to
ToolRegistry.execute. The JSON decoder json.loads is modelled as an
explicit parameter that either yields a keyword mapping or fails. -/
def execute_tool_call (decode : String → Option Args) (reg : ToolRegistry)
    (tc : ToolCall) : String :=
  match tc.arguments with
  | .raw s =>
      match decode s with
      | none => invalidJsonText tc.name
      | some a => reg.execute tc.name a
  | .parsed a => reg.execute tc.name a

-- ==========================================================================
-- C5: ToolRegistry.execute never propagates an exception
-- ==========================================================================

/-- C5: for every registry, tool name and keyword-argument mapping,
ToolRegistry.execute returns a text value determined as follows, and in
particular never propagates an exception of the callable: an unregistered
name yields the tool-not-found error text, a callable that returns
normally yields its result, and a callable that raises yields an error
text naming the tool and the exception. -/
theorem c5_registry_execute_total (reg : ToolRegistry) (name : String)
    (kwargs : Args) :
    (reg.get name = none → reg.execute name kwargs = toolNotFoundText name)
    ∧ (∀ t : Tool, reg.get name = some t →
        (∀ r, t.function kwargs = .ok r → reg.execute name kwargs = r)
        ∧ (∀ e, t.function kwargs = .error e →
            reg.execute name kwargs = toolExecErrorText name e)) := by
  refine ⟨?_, ?_⟩
  · intro h
    simp [ToolRegistry.execute, h]
  · intro t ht
    refine ⟨?_, ?_⟩
    · intro r hr
      simp [ToolRegistry.execute, Tool.execute, ht, hr]
    · intro e he
      simp [ToolRegistry.execute, Tool.execute, ht, he]

/-- A tool whose callable always raises, used by concrete witnesses. -/
def boomTool : Tool :=
  { name := "boom", description := "always raises",
    function := fun _ => .error "exploded" }

/-- A registry holding only the always-raising tool. -/
def regBoom : ToolRegistry := { tools := [("boom", boomTool)] }

/-- C5 (witness): on the concrete registry, an unregistered name returns
the not-found text and the raising tool returns the executing-error
text. -/
theorem c5_registry_execute_total_witness :
    regBoom.execute "missing" [] = toolNotFoundText "missing"
    ∧ regBoom.execute "boom" [] = toolExecErrorText "boom" "exploded" :=
  ⟨(c5_registry_execute_total regBoom "missing" []).1 rfl,
   ((c5_registry_execute_total regBoom "boom" []).2 boomTool rfl).2 "exploded" rfl⟩

-- ==========================================================================
-- C8: execute_tool_call decodes raw string arguments before dispatching
-- ==========================================================================

/-- C8: for every tool-call record whose arguments field is a raw string,
execute_tool_call decodes the string before dispatching: when the decoder
fails, the result is the JSON-decode error text naming the tool, and the
result does not depend on the registry at all, so no registered callable
is invoked; when the decoder succeeds, the decoded mapping is dispatched
to ToolRegistry.execute. -/
theorem c8_execute_tool_call_decode (decode : String → Option Args)
    (reg reg2 : ToolRegistry) (name s : String) :
    (decode s = none →
      execute_tool_call decode reg { id := none, name := name, arguments := .raw s }
        = invalidJsonText name
      ∧ execute_tool_call decode reg { id := none, name := name, arguments := .raw s }
        = execute_tool_call decode reg2 { id := none, name := name, arguments := .raw s })
    ∧ (∀ a : Args, decode s = some a →
        execute_tool_call decode reg { id := none, name := name, arguments := .raw s }
          = reg.execute name a) := by
  refine ⟨?_, ?_⟩
  · intro h
    simp [execute_tool_call, h]
  · intro a h
    simp [execute_tool_call, h]

/-- A decoder that rejects every blob, standing in for json.loads applied
to malformed input. -/
def rejectAll : String → Option Args := fun _ => none

/-- C8 (witness): with a rejecting decoder the concrete call yields the
JSON-decode error text on both a populated and an empty registry. -/
theorem c8_execute_tool_call_decode_witness :
    execute_tool_call rejectAll regBoom
        { id := none, name := "boom", arguments := .raw "not json" }
      = invalidJsonText "boom"
    ∧ execute_tool_call rejectAll regBoom
        { id := none, name := "boom", arguments := .raw "not json" }
      = execute_tool_call rejectAll { tools := [] }
          { id := none, name := "boom", arguments := .raw "not json" } :=
  (c8_execute_tool_call_decode rejectAll regBoom { tools := [] } "boom" "not json").1 rfl

-- ==========================================================================
-- llm_client.py: the system-instruction extraction of the two adapters
-- ==========================================================================

/-- llm_client.py, GeminiClient.chat lines 196-201: system_content starts at
the provider default and the loop overwrites it with the content of a
system-role message, leaving the loop at the first hit. -/
def geminiSystemContent (defaultIns : String) : List Message → String
  | [] => defaultIns
  | m :: rest =>
      if m.role == "system" then m.content else geminiSystemContent defaultIns rest

/-- llm_client.py, OllamaClient._convert_messages_to_ollama lines 304-309:
the same extraction loop as the Gemini adapter. -/
def ollamaSystemContent (defaultIns : String) : List Message → String
  | [] => defaultIns
  | m :: rest =>
      if m.role == "system" then m.content else ollamaSystemContent defaultIns rest

/-- llm_client.py, OllamaClient._convert_messages_to_ollama lines 311-316:
the extracted system content is sent as a leading system entry of the
wire message list when it is non-empty. -/
def ollamaSystemPrelude (defaultIns : String) (msgs : List Message) :
    List (String × String) :=
  let c := ollamaSystemContent defaultIns msgs
  if c ≠ "" then [("system", c)] else []

/-- Modelled from the spec: the adapter uses the content of the last
system-role message present, or the provider default if none is
supplied. -/
def specLastSystemContent (defaultIns : String) (msgs : List Message) : String :=
  (((msgs.filter (fun m => m.role == "system")).getLast?).map Message.content).getD
    defaultIns

/-- The content of the first system-role message of a list, when one
exists. -/
def firstSystemContent (msgs : List Message) : Option String :=
  (msgs.find? (fun m => m.role == "system")).map Message.content

-- ==========================================================================
-- C3: which system message the adapters use
-- ==========================================================================

/-- C3 (counterexample). On a message list holding two system messages with
contents "A" then "B", both adapter extractions yield "A", the content of
the first system message, while the claim predicts the content "B" of the
last one. -/
theorem c3_system_instruction_counterexample :
    geminiSystemContent "D" [msgS "A", msgS "B"] = "A"
    ∧ ollamaSystemContent "D" [msgS "A", msgS "B"] = "A"
    ∧ specLastSystemContent "D" [msgS "A", msgS "B"] = "B"
    ∧ ("A" : String) ≠ "B" := by
  refine ⟨rfl, rfl, rfl, ?_⟩
  decide

/-- The Gemini extraction loop returns the first system-role content, or
the default when none exists. -/
theorem geminiSystemContent_eq_first (defaultIns : String) (msgs : List Message) :
    geminiSystemContent defaultIns msgs
      = (firstSystemContent msgs).getD defaultIns := by
  induction msgs with
  | nil => rfl
  | cons m rest ih =>
      by_cases h : m.role == "system"
      · simp [geminiSystemContent, firstSystemContent, List.find?_cons, h]
      · simp only [geminiSystemContent, firstSystemContent, List.find?_cons, h] at ih ⊢
        simpa [firstSystemContent] using ih

/-- The Ollama extraction loop returns the first system-role content, or
the default when none exists. -/
theorem ollamaSystemContent_eq_first (defaultIns : String) (msgs : List Message) :
    ollamaSystemContent defaultIns msgs
      = (firstSystemContent msgs).getD defaultIns := by
  induction msgs with
  | nil => rfl
  | cons m rest ih =>
      by_cases h : m.role == "system"
      · simp [ollamaSystemContent, firstSystemContent, List.find?_cons, h]
      · simp only [ollamaSystemContent, firstSystemContent, List.find?_cons, h] at ih ⊢
        simpa [firstSystemContent] using ih

/-- C3 (amended): for every message list, both provider adapter variants use
the content of the FIRST system-role message in the list as the effective
system instruction; if the list contains no system-role message, the
provider-level default instruction is used. The Ollama adapter places that
instruction, when non-empty, in a leading system entry of its wire
format. -/
theorem c3_system_instruction_amended (defaultIns : String) (msgs : List Message) :
    geminiSystemContent defaultIns msgs
      = (firstSystemContent msgs).getD defaultIns
    ∧ ollamaSystemContent defaultIns msgs
        = (firstSystemContent msgs).getD defaultIns
    ∧ (firstSystemContent msgs = none →
        geminiSystemContent defaultIns msgs = defaultIns
        ∧ ollamaSystemContent defaultIns msgs = defaultIns)
    ∧ ((firstSystemContent msgs).getD defaultIns ≠ "" →
        ollamaSystemPrelude defaultIns msgs
          = [("system", (firstSystemContent msgs).getD defaultIns)]) := by
  have hg := geminiSystemContent_eq_first defaultIns msgs
  have ho := ollamaSystemContent_eq_first defaultIns msgs
  refine ⟨hg, ho, ?_, ?_⟩
  · intro hnone
    rw [hg, ho, hnone]
    exact ⟨rfl, rfl⟩
  · intro hne
    unfold ollamaSystemPrelude
    rw [ho]
    simp [hne]

/-- C3 (witness): the amended statement evaluated on a concrete list with a
single system message following a user message. -/
theorem c3_system_instruction_amended_witness :
    geminiSystemContent "D" [msgU "hi", msgS "inst"]
      = (firstSystemContent [msgU "hi", msgS "inst"]).getD "D"
    ∧ (firstSystemContent [msgU "hi", msgS "inst"]).getD "D" = "inst"
    ∧ ollamaSystemPrelude "D" [msgU "hi", msgS "inst"] = [("system", "inst")] := by
  have h := c3_system_instruction_amended "D" [msgU "hi", msgS "inst"]
  refine ⟨h.1, rfl, ?_⟩
  have hp := h.2.2.2 (by decide)
  simpa using hp

-- ==========================================================================
-- mem_0.py: MemoryService.get_memory_context
-- ==========================================================================

/-- The kind of a long-term memory (mem_0.py, enum MemoryType). -/
inductive MemoryType where
  | episodic
  | semantic
  | procedural
deriving DecidableEq, BEq

/-- One long-term memory (mem_0.py, dataclass Memory); creation time and
metadata are irrelevant to the claims and omitted. -/
structure Mem0Memory where
  id : String
  content : String
  memory_type : MemoryType
deriving DecidableEq

/-- mem_0.py lines 324-328: the marker dictionary keyed by memory type,
consulted with a bullet as the default for an absent key. -/
def typeIcon (t : MemoryType) : String :=
  (([(MemoryType.episodic, "📅"),
     (MemoryType.semantic, "💡"),
     (MemoryType.procedural, "⚙️")] : List (MemoryType × String)).lookup t).getD "•"

/-- The rendering applied to a list of memories: one line per memory,
marker then content, joined with newlines (mem_0.py lines 322-331). -/
def renderMemories (mems : List Mem0Memory) : String :=
  String.intercalate "\n" (mems.map (fun mem => typeIcon mem.memory_type ++ " " ++ mem.content))

/-- mem_0.py, MemoryService.get_memory_context: return empty when disabled;
otherwise try the semantic search results, fall back to the get_all
results when the search yields nothing, return empty when both are empty,
and render one line per memory otherwise. The backend interactions of
search and get_all are abstracted into the two result lists. -/
def get_memory_context (enabled : Bool)
    (searchResults getAllResults : List Mem0Memory) : String :=
  if !enabled then ""
  else
    let memories := searchResults
    let memories := if memories.isEmpty then getAllResults else memories
    if memories.isEmpty then ""
    else renderMemories memories

-- ==========================================================================
-- C6: the fallback and rendering of get_memory_context
-- ==========================================================================

/-- C6: with the service enabled, get_memory_context uses the semantic
search results when they are non-empty; when the search yields zero
memories it falls back to the get_all results and returns exactly their
rendering; when both are empty it returns the empty string; non-empty
results are rendered one memory per line, each line prefixed by the marker
determined by the memory type, joined with newlines. -/
theorem c6_memory_context (enabled : Bool) (s g : List Mem0Memory)
    (he : enabled = true) :
    (s = [] → g = [] → get_memory_context enabled s g = "")
    ∧ (s = [] → get_memory_context enabled s g = renderMemories g)
    ∧ (s ≠ [] → get_memory_context enabled s g = renderMemories s) := by
  subst he
  refine ⟨?_, ?_, ?_⟩
  · intro hs hg
    subst hs; subst hg
    rfl
  · intro hs
    subst hs
    by_cases hg : g = []
    · subst hg; rfl
    · simp [get_memory_context, List.isEmpty_iff, hg]
  · intro hs
    simp [get_memory_context, List.isEmpty_iff, hs]

/-- A concrete episodic memory used by the C6 witness. -/
def memEp : Mem0Memory :=
  { id := "m1", content := "likes tangerines", memory_type := MemoryType.episodic }

/-- C6 (witness): concrete evaluations of the fallback, the
empty-empty case and the search-first case. -/
theorem c6_memory_context_witness :
    get_memory_context true [] [memEp] = renderMemories [memEp]
    ∧ get_memory_context true [] [] = ""
    ∧ get_memory_context true [memEp] [] = renderMemories [memEp] :=
  ⟨(c6_memory_context true [] [memEp] rfl).2.1 rfl,
   (c6_memory_context true [] [] rfl).1 rfl rfl,
   (c6_memory_context true [memEp] [] rfl).2.2 (by decide)⟩

-- ==========================================================================
-- main.py: AgentLoop._chat
-- ==========================================================================

/-- A normalized provider response (llm_client.py, dataclass LLMResponse):
text content, tool calls, and the usage dictionary reduced to its
total_tokens entry; none stands for the empty dictionary, which is falsy
in the truthiness test of _chat. finish_reason and raw_response play no
role in the turn loop and are omitted. -/
structure LLMResponse where
  content : String
  tool_calls : List ToolCall
  usage : Option Nat
deriving DecidableEq

/-- The externally observable actions of one turn of _chat: the two
possible model calls, each tool execution, each rendered message or
error, and each extract_and_store call on the memory service. Purely
cosmetic TUI activity (the thinking indicator, the per-tool render) is
not modelled. -/
inductive Event where
  | modelCall
  | toolExec (name : String)
  | renderMessage (role content : String)
  | renderError (msg : String)
  | extractAndStore (userInput assistantResponse : String)
deriving DecidableEq

/-- The environment one _chat call runs against: the outcome of the first
model call, the outcome of the follow-up call (consulted only on the tool
path), the two configuration gates read by the finally block, and the
execute_tool_call function with its ambient registry. Exceptions raised
by a model call are the error case of the Except. -/
structure ChatEnv where
  firstResult : Except String LLMResponse
  followUpResult : Except String LLMResponse
  memory_auto_extract : Bool
  memory_enabled : Bool
  exec : ToolCall → String

/-- main.py, MemoryManager.update_token_usage guarded by the truthiness
check on response.usage in _chat: add total_tokens when the usage
dictionary is non-empty. -/
def update_token_usage (mm : MemoryManager) (usage : Option Nat) : MemoryManager :=
  match usage with
  | some t => { mm with total_tokens_used := mm.total_tokens_used + t }
  | none => mm

/-- main.py, AgentLoop._process_tool_calls: walk the tool calls in order,
execute each one, and produce the tool-role response message carrying the
result keyed by the call id (synthesized from the name when absent) and
name. Returns the response messages and the execution events. -/
def process_tool_calls (ex : ToolCall → String) : List ToolCall → List Message × List Event
  | [] => ([], [])
  | tc :: rest =>
      let result := ex tc
      let msg : Message :=
        { role := "tool", content := result,
          tool_call_id := some (tc.id.getD ("call_" ++ tc.name)),
          name := some tc.name }
      let pr := process_tool_calls ex rest
      (msg :: pr.1, Event.toolExec tc.name :: pr.2)

/-- main.py, AgentLoop._chat without its finally block: append the user
message, call the model; on an exception render the error; otherwise
record usage, then either follow the tool path (append the assistant
message carrying the tool calls, execute them, append each tool response,
make the follow-up call, and append and render its content when
non-empty) or the plain path (append and render the response content when
non-empty). -/
def chat_core (env : ChatEnv) (user_input : String) (mm : MemoryManager) :
    MemoryManager × List Event :=
  let mm1 := mm.add_message { role := "user", content := user_input }
  match env.firstResult with
  | .error e => (mm1, [Event.modelCall, Event.renderError e])
  | .ok resp =>
      let mm2 := update_token_usage mm1 resp.usage
      if !resp.tool_calls.isEmpty then
        let mm3 := mm2.add_message
          { role := "assistant", content := resp.content,
            tool_calls := resp.tool_calls }
        let pr := process_tool_calls env.exec resp.tool_calls
        let mm4 := pr.1.foldl MemoryManager.add_message mm3
        match env.followUpResult with
        | .error e =>
            (mm4, Event.modelCall :: pr.2 ++ [Event.modelCall, Event.renderError e])
        | .ok fu =>
            if fu.content ≠ "" then
              (mm4.add_message { role := "assistant", content := fu.content },
               Event.modelCall :: pr.2
                 ++ [Event.modelCall, Event.renderMessage "assistant" fu.content])
            else
              (mm4, Event.modelCall :: pr.2 ++ [Event.modelCall])
      else
        if resp.content ≠ "" then
          (mm2.add_message { role := "assistant", content := resp.content },
           [Event.modelCall, Event.renderMessage "assistant" resp.content])
        else
          (mm2, [Event.modelCall])

/-- main.py, the finally block of AgentLoop._chat: when auto-extraction is
configured and the memory service is enabled, find the assistant-role
messages of the current window; when any exist, call extract_and_store
with the user input and the content of the last of them. -/
def chat_finalize (env : ChatEnv) (user_input : String)
    (r : MemoryManager × List Event) : MemoryManager × List Event :=
  if env.memory_auto_extract && env.memory_enabled then
    match (r.1.messages.filter (fun m => m.role == "assistant")).getLast? with
    | some last => (r.1, r.2 ++ [Event.extractAndStore user_input last.content])
    | none => r
  else r

/-- main.py, AgentLoop._chat: the try body followed by the finally block. -/
def agent_chat (env : ChatEnv) (user_input : String) (mm : MemoryManager) :
    MemoryManager × List Event :=
  chat_finalize env user_input (chat_core env user_input mm)

/-- True exactly on extract_and_store events. -/
def isExtract : Event → Bool
  | .extractAndStore _ _ => true
  | _ => false

/-- True exactly on tool-execution events. -/
def isToolExec : Event → Bool
  | .toolExec _ => true
  | _ => false

/-- True exactly on model-call events. -/
def isModelCall : Event → Bool
  | .modelCall => true
  | _ => false

/-- The tool executions of a trace, in order. -/
def toolExecs (es : List Event) : List Event := es.filter isToolExec

/-- The model calls of a trace, in order. -/
def modelCalls (es : List Event) : List Event := es.filter isModelCall

-- ==========================================================================
-- Turn-loop helper lemmas
-- ==========================================================================

/-- The event trace of process_tool_calls is one execution event per tool
call, in the order the calls were given. -/
theorem process_tool_calls_events (ex : ToolCall → String) (tcs : List ToolCall) :
    (process_tool_calls ex tcs).2 = tcs.map (fun tc => Event.toolExec tc.name) := by
  induction tcs with
  | nil => rfl
  | cons tc rest ih => simp [process_tool_calls, ih]

/-- The finally block never changes the window state. -/
theorem chat_finalize_fst (env : ChatEnv) (input : String)
    (r : MemoryManager × List Event) :
    (chat_finalize env input r).1 = r.1 := by
  unfold chat_finalize
  by_cases h : env.memory_auto_extract && env.memory_enabled
  · simp only [h, if_pos]
    cases (r.1.messages.filter (fun m => m.role == "assistant")).getLast? <;> rfl
  · simp [h]

/-- Filtering the trace with a test that ignores extraction events passes
unchanged through the finally block. -/
theorem chat_finalize_filter (p : Event → Bool)
    (hp : ∀ i r, p (Event.extractAndStore i r) = false)
    (env : ChatEnv) (input : String) (r : MemoryManager × List Event) :
    ((chat_finalize env input r).2).filter p = r.2.filter p := by
  unfold chat_finalize
  by_cases h : env.memory_auto_extract && env.memory_enabled
  · simp only [h, if_pos]
    cases hl : (r.1.messages.filter (fun m => m.role == "assistant")).getLast? with
    | none => rfl
    | some last => simp [List.filter_append, hp]
  · simp [h]

/-- The try body of _chat performs no extraction. -/
theorem chat_core_no_extract (env : ChatEnv) (input : String) (mm : MemoryManager) :
    (chat_core env input mm).2.filter isExtract = [] := by
  unfold chat_core
  cases env.firstResult with
  | error e => rfl
  | ok resp =>
      by_cases htc : resp.tool_calls.isEmpty
      · by_cases hc : resp.content ≠ "" <;> simp [htc, hc, isExtract]
      · cases hfu : env.followUpResult with
        | error e =>
            simp [htc, List.filter_append, process_tool_calls_events,
              List.filter_eq_nil_iff, isExtract]
        | ok fu =>
            by_cases hc : fu.content ≠ "" <;>
              simp [htc, hc, List.filter_append, process_tool_calls_events,
                List.filter_eq_nil_iff, isExtract]

/-- Events survive the finally block. -/
theorem chat_finalize_mem (env : ChatEnv) (input : String)
    (r : MemoryManager × List Event) (x : Event) (hx : x ∈ r.2) :
    x ∈ (chat_finalize env input r).2 := by
  unfold chat_finalize
  by_cases h : env.memory_auto_extract && env.memory_enabled
  · simp only [h, if_pos]
    cases (r.1.messages.filter (fun m => m.role == "assistant")).getLast? with
    | none => exact hx
    | some last => exact List.mem_append_left _ hx
  · simp only [h]
    simpa using hx

/-- A non-extraction event found after the finally block was already in the
trace before it. -/
theorem chat_finalize_mem_rev (env : ChatEnv) (input : String)
    (r : MemoryManager × List Event) (x : Event) (hx : isExtract x = false)
    (h : x ∈ (chat_finalize env input r).2) : x ∈ r.2 := by
  unfold chat_finalize at h
  by_cases hc : env.memory_auto_extract && env.memory_enabled
  · simp only [hc, if_pos] at h
    cases hl : (r.1.messages.filter (fun m => m.role == "assistant")).getLast? with
    | none => rw [hl] at h; exact h
    | some last =>
        rw [hl] at h
        rcases List.mem_append.mp h with h1 | h2
        · exact h1
        · simp at h2
          subst h2
          simp [isExtract] at hx
  · simp only [hc] at h
    simpa using h

/-- Filtering a trace of tool executions with the tool-execution test keeps
it unchanged. -/
theorem filter_toolExec_map (tcs : List ToolCall) :
    (tcs.map (fun tc => Event.toolExec tc.name)).filter isToolExec
      = tcs.map (fun tc => Event.toolExec tc.name) := by
  rw [List.filter_eq_self]
  intro a ha
  obtain ⟨tc, _, rfl⟩ := List.mem_map.mp ha
  rfl

/-- A trace of tool executions holds no model calls. -/
theorem filter_modelCall_map (tcs : List ToolCall) :
    (tcs.map (fun tc => Event.toolExec tc.name)).filter isModelCall = [] := by
  rw [List.filter_eq_nil_iff]
  intro a ha
  obtain ⟨tc, _, rfl⟩ := List.mem_map.mp ha
  simp [isModelCall]

-- ==========================================================================
-- Sample environments used by concrete counterexamples and witnesses
-- ==========================================================================

/-- A provider response with empty content, no tool calls and no usage. -/
def respEmpty : LLMResponse := { content := "", tool_calls := [], usage := none }

/-- A provider response answering "4" with no tool calls. -/
def resp4 : LLMResponse := { content := "4", tool_calls := [], usage := none }

/-- An environment whose first model call raises, with extraction gates
open. -/
def envErr : ChatEnv :=
  { firstResult := .error "boom", followUpResult := .ok respEmpty,
    memory_auto_extract := true, memory_enabled := true, exec := fun _ => "" }

/-- A window already holding one assistant message from an earlier turn. -/
def mmPrev : MemoryManager :=
  { messages := [{ role := "assistant", content := "old" }], max_messages := 50,
    sliding_window_size := 20, total_tokens_used := 0 }

/-- An environment whose first model call succeeds with an empty response,
with extraction gates closed. -/
def envEmptyResp : ChatEnv :=
  { firstResult := .ok respEmpty, followUpResult := .ok respEmpty,
    memory_auto_extract := false, memory_enabled := false, exec := fun _ => "" }

/-- An environment whose first model call answers "4", with extraction
gates closed. -/
def envOk4 : ChatEnv :=
  { firstResult := .ok resp4, followUpResult := .ok respEmpty,
    memory_auto_extract := false, memory_enabled := false, exec := fun _ => "" }

/-- An environment whose first model call answers "4", with extraction
gates open. -/
def envOkAuto : ChatEnv :=
  { firstResult := .ok resp4, followUpResult := .ok respEmpty,
    memory_auto_extract := true, memory_enabled := true, exec := fun _ => "" }

/-- A tool call naming the ls tool with parsed empty arguments. -/
def tcLs : ToolCall := { id := some "1", name := "ls", arguments := .parsed [] }

/-- A first response requesting one tool call. -/
def respTool : LLMResponse := { content := "", tool_calls := [tcLs], usage := none }

/-- An environment whose first model call requests one tool call and whose
follow-up answers "done", with extraction gates closed. -/
def envTool : ChatEnv :=
  { firstResult := .ok respTool,
    followUpResult := .ok { content := "done", tool_calls := [], usage := none },
    memory_auto_extract := false, memory_enabled := false,
    exec := fun tc => "ok " ++ tc.name }

-- ==========================================================================
-- C2: a failed first model call
-- ==========================================================================

/-- C2 (counterexample). The claim states that no auto-extraction is
attempted for a failed turn. With extraction configured on, the memory
service enabled and an assistant message from an earlier turn in the
window, a turn whose first model call raises still triggers an
extract_and_store call, pairing the failed turn user input with the stale
assistant content: the finally block of _chat runs on the error path
too. -/
theorem c2_provider_error_counterexample :
    envErr.firstResult = Except.error "boom"
    ∧ Event.extractAndStore "hi" "old" ∈ (agent_chat envErr "hi" mmPrev).2 := by
  refine ⟨rfl, ?_⟩
  have h : (agent_chat envErr "hi" mmPrev).2
      = [Event.modelCall, Event.renderError "boom",
         Event.extractAndStore "hi" "old"] := rfl
  rw [h]
  simp

/-- C2 (amended): for every turn whose first model call raises, the turn
loop renders the error and leaves the window equal to the previous window
with only the user message appended (not rolled back, and still present
after any eviction); no assistant message is appended and nothing is
rendered as a message for that turn. Auto-extraction is attempted exactly
when extraction is configured on, the memory service is enabled, and the
window holds an assistant-role message, necessarily from an earlier turn;
it then pairs the user input with the content of the last such message. -/
theorem c2_provider_error_amended (env : ChatEnv) (input : String)
    (mm : MemoryManager) (e : String) (h : env.firstResult = .error e) :
    (agent_chat env input mm).1
      = mm.add_message { role := "user", content := input }
    ∧ ({ role := "user", content := input } : Message)
        ∈ (agent_chat env input mm).1.messages
    ∧ Event.renderError e ∈ (agent_chat env input mm).2
    ∧ (∀ r c, Event.renderMessage r c ∉ (agent_chat env input mm).2)
    ∧ ((agent_chat env input mm).2.filter isExtract
        = if env.memory_auto_extract && env.memory_enabled then
            (match ((mm.add_message { role := "user", content := input }).messages.filter
                (fun m => m.role == "assistant")).getLast? with
             | some last => [Event.extractAndStore input last.content]
             | none => [])
          else []) := by
  have hcore : chat_core env input mm
      = (mm.add_message { role := "user", content := input },
         [Event.modelCall, Event.renderError e]) := by
    unfold chat_core
    rw [h]
  refine ⟨?_, ?_, ?_, ?_, ?_⟩
  · unfold agent_chat
    rw [chat_finalize_fst, hcore]
  · unfold agent_chat
    rw [chat_finalize_fst, hcore]
    exact add_message_mem_self mm _
  · unfold agent_chat
    apply chat_finalize_mem
    rw [hcore]
    simp
  · intro r c hmem
    unfold agent_chat at hmem
    have hx : isExtract (Event.renderMessage r c) = false := rfl
    have := chat_finalize_mem_rev env input _ _ hx hmem
    rw [hcore] at this
    simp at this
  · unfold agent_chat chat_finalize
    rw [hcore]
    by_cases hae : (env.memory_auto_extract && env.memory_enabled) = true
    · simp only [hae, if_pos]
      cases hl : ((mm.add_message { role := "user", content := input }).messages.filter
          (fun m => m.role == "assistant")).getLast? with
      | none => simp [isExtract]
      | some last => simp [List.filter_append, isExtract]
    · simp only [Bool.not_eq_true] at hae
      simp [hae, isExtract]

/-- C2 (witness): the amended statement evaluated on a fresh window with a
failing first call; the window ends with exactly the user message and the
error is rendered. -/
theorem c2_provider_error_amended_witness :
    (agent_chat envErr "hi" (initMM 50 20)).1
      = (initMM 50 20).add_message { role := "user", content := "hi" }
    ∧ Event.renderError "boom" ∈ (agent_chat envErr "hi" (initMM 50 20)).2 := by
  have h := c2_provider_error_amended envErr "hi" (initMM 50 20) "boom" rfl
  exact ⟨h.1, h.2.2.1⟩

-- ==========================================================================
-- C9: a successful response without tool calls
-- ==========================================================================

/-- C9 (counterexample). The claim includes responses with empty content,
but _chat appends and renders the assistant message only when the content
is non-empty: on an empty-content response the window ends with only the
user message, no assistant-role message exists, and the trace holds just
the model call. -/
theorem c9_plain_response_counterexample :
    (agent_chat envEmptyResp "hi" (initMM 50 20)).1.messages
      = [{ role := "user", content := "hi" }]
    ∧ ((agent_chat envEmptyResp "hi" (initMM 50 20)).1.messages.filter
        (fun m => m.role == "assistant")) = []
    ∧ (agent_chat envEmptyResp "hi" (initMM 50 20)).2 = [Event.modelCall] :=
  ⟨rfl, rfl, rfl⟩

/-- C9 (amended): for every successful response with no tool calls, when the
content is non-empty the turn loop appends an assistant message carrying
it to the window and renders it; when the content is empty it neither
appends an assistant message nor renders anything. -/
theorem c9_plain_response_amended (env : ChatEnv) (input : String)
    (mm : MemoryManager) (resp : LLMResponse)
    (h : env.firstResult = .ok resp) (ht : resp.tool_calls = []) :
    (resp.content ≠ "" →
      (agent_chat env input mm).1
        = (update_token_usage (mm.add_message { role := "user", content := input })
            resp.usage).add_message { role := "assistant", content := resp.content }
      ∧ Event.renderMessage "assistant" resp.content ∈ (agent_chat env input mm).2)
    ∧ (resp.content = "" →
      (agent_chat env input mm).1
        = update_token_usage (mm.add_message { role := "user", content := input })
            resp.usage
      ∧ ∀ r c, Event.renderMessage r c ∉ (agent_chat env input mm).2) := by
  constructor
  · intro hc
    have hcore : chat_core env input mm
        = ((update_token_usage (mm.add_message { role := "user", content := input })
              resp.usage).add_message { role := "assistant", content := resp.content },
           [Event.modelCall, Event.renderMessage "assistant" resp.content]) := by
      unfold chat_core
      rw [h]
      simp [ht, hc]
    refine ⟨?_, ?_⟩
    · unfold agent_chat
      rw [chat_finalize_fst, hcore]
    · unfold agent_chat
      apply chat_finalize_mem
      rw [hcore]
      simp
  · intro hc
    have hcore : chat_core env input mm
        = (update_token_usage (mm.add_message { role := "user", content := input })
             resp.usage,
           [Event.modelCall]) := by
      unfold chat_core
      rw [h]
      simp [ht, hc]
    refine ⟨?_, ?_⟩
    · unfold agent_chat
      rw [chat_finalize_fst, hcore]
    · intro r c hmem
      unfold agent_chat at hmem
      have hx : isExtract (Event.renderMessage r c) = false := rfl
      have := chat_finalize_mem_rev env input _ _ hx hmem
      rw [hcore] at this
      simp at this

/-- C9 (witness): the amended statement evaluated on a concrete turn
answering "4": the assistant message is appended and rendered. -/
theorem c9_plain_response_amended_witness :
    (agent_chat envOk4 "hi" (initMM 50 20)).1
      = (update_token_usage ((initMM 50 20).add_message
            { role := "user", content := "hi" }) none).add_message
          { role := "assistant", content := "4" }
    ∧ Event.renderMessage "assistant" "4" ∈ (agent_chat envOk4 "hi" (initMM 50 20)).2 := by
  have h := c9_plain_response_amended envOk4 "hi" (initMM 50 20) resp4 rfl rfl
  exact h.1 (by decide)

-- ==========================================================================
-- C4: single round of tool execution per turn
-- ==========================================================================

/-- C4: for every turn whose first model response contains at least one tool
call, the executed tools are exactly the tool calls of that first
response, one execution each, in the order returned; the trace holds
exactly two model calls, so exactly one follow-up call is made; and since
the executed list is determined by the first response alone, whatever the
follow-up result holds, no tool call of the follow-up response is ever
executed. -/
theorem c4_single_round (env : ChatEnv) (input : String) (mm : MemoryManager)
    (resp : LLMResponse) (h : env.firstResult = .ok resp)
    (hne : resp.tool_calls ≠ []) :
    toolExecs (agent_chat env input mm).2
      = resp.tool_calls.map (fun tc => Event.toolExec tc.name)
    ∧ modelCalls (agent_chat env input mm).2 = [Event.modelCall, Event.modelCall] := by
  have hp1 : ∀ i r, isToolExec (Event.extractAndStore i r) = false := fun _ _ => rfl
  have hp2 : ∀ i r, isModelCall (Event.extractAndStore i r) = false := fun _ _ => rfl
  have htc : resp.tool_calls.isEmpty = false := by
    simpa [List.isEmpty_iff] using hne
  unfold agent_chat toolExecs modelCalls
  rw [chat_finalize_filter isToolExec hp1, chat_finalize_filter isModelCall hp2]
  unfold chat_core
  rw [h]
  simp only [htc, Bool.not_false, if_true]
  cases env.followUpResult with
  | error e =>
      simp [List.filter_append, process_tool_calls_events, filter_toolExec_map,
        filter_modelCall_map, isToolExec, isModelCall]
  | ok fu =>
      by_cases hc : fu.content ≠ "" <;>
        simp [hc, List.filter_append, process_tool_calls_events,
          filter_toolExec_map, filter_modelCall_map, isToolExec, isModelCall]

/-- C4 (witness): the single-round property evaluated on a concrete turn
with one requested tool call: one ls execution and two model calls. -/
theorem c4_single_round_witness :
    toolExecs (agent_chat envTool "go" (initMM 50 20)).2 = [Event.toolExec "ls"]
    ∧ modelCalls (agent_chat envTool "go" (initMM 50 20)).2
        = [Event.modelCall, Event.modelCall] := by
  have h := c4_single_round envTool "go" (initMM 50 20) respTool rfl (by decide)
  simpa [respTool, tcLs] using h

-- ==========================================================================
-- C10: the auto-extraction at the end of every turn
-- ==========================================================================

/-- C10: whenever auto-extraction is configured on and the memory service is
enabled, the end of _chat calls extract_and_store exactly once with the
turn user input paired with the content of the last assistant-role
message in the final window, whatever path the turn took; it makes no
call exactly when the final window holds no assistant-role message. -/
theorem c10_auto_extraction (env : ChatEnv) (input : String) (mm : MemoryManager)
    (ha : env.memory_auto_extract = true) (hm : env.memory_enabled = true) :
    (agent_chat env input mm).2.filter isExtract
      = match ((agent_chat env input mm).1.messages.filter
            (fun m => m.role == "assistant")).getLast? with
        | some last => [Event.extractAndStore input last.content]
        | none => [] := by
  unfold agent_chat
  rw [chat_finalize_fst]
  unfold chat_finalize
  rw [ha, hm]
  simp only [Bool.and_self, if_true]
  cases hl : ((chat_core env input mm).1.messages.filter
      (fun m => m.role == "assistant")).getLast? with
  | none =>
      simpa using chat_core_no_extract env input mm
  | some last =>
      have h0 := chat_core_no_extract env input mm
      simp [List.filter_append, h0, isExtract]

/-- C10 (witness): on a concrete successful plain turn with the gates open,
exactly one extraction event is produced, pairing the user input with the
assistant answer. -/
theorem c10_auto_extraction_witness :
    (agent_chat envOkAuto "hi" (initMM 50 20)).2.filter isExtract
      = [Event.extractAndStore "hi" "4"] :=
  (c10_auto_extraction envOkAuto "hi" (initMM 50 20) rfl rfl).trans rfl

end Nova
